import Mathlib

/-!
Verification of the lush shell (Makaze/lush) core against its specification.

The definitions below shallowly embed the C source of `src/lush.c` and
`src/lua_api.c`:

* the pipe splitter `lush_split_pipes` (strtok on `|` plus whitespace trim),
* the per-stage argument scanner of `lush_split_args` (quote handling,
  `$`-substitution, space splitting),
* the pipeline executor's file-descriptor wiring and close sequence,
* the builtins (`cd`, `exit`, `time`, ...) and the dispatcher `lush_run`,
* the Lua bridge's `l_execute_command` and `get_expanded_path`,
* the raw-mode line editor's buffer operations and read loop.

Strings are modelled as `List Char` (C strings without their terminator);
machine-level side effects (fork/exec, chdir, realpath) are abstracted into
explicit oracle parameters recording exactly the information the C code
branches on.
-/

/-- An environment: `getenv` as a partial map from variable names to values. -/
def LushEnv : Type := List Char → Option (List Char)

/-- The empty environment: every variable is unset. -/
def envEmpty : LushEnv := fun _ => none

/-- An environment in which exactly the variable `X` is set (to `val`). -/
def envX : LushEnv := fun n => if n = "X".data then some "val".data else none

/-! ### lush_split_pipes (lush.c lines 247-276)

`strtok(line, "|")` returns the maximal nonempty runs of non-`|` characters,
i.e. the nonempty segments of the line split at every `|`.  `pipeSegs` is the
plain split (keeping empty segments); `strtokPipes` filters the empty ones out
exactly as `strtok` does.  Each stage is then trimmed of leading and trailing
spaces and newlines (lines 264-274). -/

/-- All segments of a line split at `|`, empty segments included. -/
def pipeSegs : List Char → List (List Char)
  | [] => [[]]
  | c :: rest =>
    match pipeSegs rest with
    | [] => [[]]
    | s :: ss => if c = '|' then [] :: s :: ss else (c :: s) :: ss

/-- The tokens `strtok(line, "|")` yields: the nonempty `|`-separated segments. -/
def strtokPipes (line : List Char) : List (List Char) :=
  (pipeSegs line).filter (fun s => s ≠ [])

/-- The whitespace the trim loop strips: space and newline (lush.c 265, 270). -/
def isWsCh (c : Char) : Bool := c = ' ' || c = '\n'

/-- Trim leading and trailing spaces/newlines from one stage (lush.c 264-274). -/
def trimStage (s : List Char) : List Char :=
  ((s.dropWhile isWsCh).reverse.dropWhile isWsCh).reverse

/-- `lush_split_pipes`: split the line at pipes with `strtok`, trim each stage. -/
def lush_split_pipes (line : List Char) : List (List Char) :=
  (strtokPipes line).map trimStage

/-! ### The per-stage argument scan of lush_split_args (lush.c lines 294-346)

The C scan walks index `j` over the stage buffer with a pointer
`current_token` and a flag `inside_string`, writing `'\0'` over delimiters
and collecting pointers in `args`; an entry is `getenv`'s result for a
`$`-substitution, which may be NULL.  We model `current_token` by `pending`:
`none` when `current_token` is NULL, `some l` when it points at a position
from which the characters scanned so far are `l` (the emitted token is
exactly those characters, as each emission writes the terminator at the
current position).  Details mirrored from the source:

* quote-open (line 297-306): the quote is zeroed; an adjacent `""` pair is
  zeroed whole and `current_token` set past it (`&buf[++j]`), so the
  character right after the pair is never examined by the scan, only
  accumulated; a non-pair open sets `current_token` at the next character,
  which is likewise accumulated unexamined (the loop increment skips it);
  in both cases a pending unemitted token is discarded;
* inside a string (307-317): a quote closes and emits unconditionally;
* space (318-324): emits the pending token unless it is empty or starts
  with a space (`*current_token != ' '`);
* `$` followed by a character other than `'\0'` and `' '` (325-332): the whole
  remainder of the stage is the variable name, `getenv`'s result (possibly
  NULL) is stored and the position counter incremented, `j` is run to the
  stage terminator and `current_token` set one past it; for a stage whose
  buffer is followed by zeroed memory (the last or only stage of a line read
  into the editor's `calloc`ed buffer) the loop then exits and the final
  tack-on emits the empty string found there;
* end of stage (339-346): `inside_string` set is the hard parse failure;
  otherwise the pending token is tacked on under the same
  `*current_token != ' '` test, where an exhausted pending token reads the
  terminator (`'\0' ≠ ' '`) and so emits an empty string. -/

/-- End-of-stage handling (lush.c 339-346): an open quote is the hard parse
failure; otherwise the pending token is tacked on when `current_token` is
non-NULL and does not point at a space (an exhausted pending token reads the
stage terminator, and `'\0' ≠ ' '` makes it emit an empty string). -/
def scanEnd (pending : Option (List Char)) (inside : Bool)
    (args : List (Option (List Char))) : List (Option (List Char)) × Bool :=
  if inside then (args, true)
  else
    match pending with
    | none => (args, false)
    | some [] => (args ++ [some []], false)
    | some (c :: cs) =>
      if c = ' ' then (args, false) else (args ++ [some (c :: cs)], false)

/-- One stage's argument scan.  Arguments: the remaining characters, the
pending token (`current_token`), `inside_string`, the arguments collected so
far.  Result: the collected argument entries (`none` is a stored NULL from an
unset variable) and whether the stage ended inside an unterminated quote. -/
def scanStage (env : LushEnv) :
    List Char → Option (List Char) → Bool → List (Option (List Char)) →
    List (Option (List Char)) × Bool
  | [], pending, inside, args => scanEnd pending inside args
  | c :: rest, pending, inside, args =>
    if c = '"' ∧ ¬inside then
      match rest with
      | [] => scanEnd (some []) true args
      | d :: rest' =>
        if d = '"' then
          match rest' with
          | [] => scanEnd (some []) false args
          | e :: rest'' => scanStage env rest'' (some [e]) false args
        else
          scanStage env rest' (some [d]) true args
    else if inside then
      if c = '"' then
        scanStage env rest none false (args ++ [some (pending.getD [])])
      else
        scanStage env rest (pending.map (fun l => l ++ [c])) true args
    else if c = ' ' then
      let args' :=
        match pending with
        | some (a :: as') => if a = ' ' then args else args ++ [some (a :: as')]
        | _ => args
      scanStage env rest (some []) false args'
    else
      match rest with
      | _ :: _ =>
        if c = '$' ∧ rest.headD ' ' ≠ ' ' then
          (args ++ [env rest, some []], false)
        else
          scanStage env rest (pending.map (fun l => l ++ [c])) false args
      | [] => scanEnd (pending.map (fun l => l ++ [c])) false args

/-- Run the scan on one stage from its initial state (`current_token` at the
start of the buffer, outside any string, no arguments yet). -/
def scanStageRun (env : LushEnv) (s : List Char) : List (Option (List Char)) × Bool :=
  scanStage env s (some []) false []

/-- The outer loop of `lush_split_args` (lush.c 286-353): scan each stage in
order; an unterminated quote aborts the whole call with status `-1`
(returning the stages collected so far), otherwise the status is the number
of stages. -/
def splitArgsGo (env : LushEnv) (acc : List (List (Option (List Char)))) :
    List (List Char) → List (List (Option (List Char))) × Int
  | [] => (acc, Int.ofNat acc.length)
  | s :: rest =>
    let r := scanStageRun env s
    if r.2 then (acc, -1) else splitArgsGo env (acc ++ [r.1]) rest

/-- `lush_split_args`: the argument vectors of all stages plus the status. -/
def lush_split_args (env : LushEnv) (stages : List (List Char)) :
    List (List (Option (List Char))) × Int :=
  splitArgsGo env [] stages

/-- What `main` (lush.c 479-483) does with the status: the dispatcher
`lush_run` is invoked exactly when the status is not `-1`. -/
def lush_main_runs (env : LushEnv) (stages : List (List Char)) : Bool :=
  (lush_split_args env stages).2 != -1

/-- The specification's quote rule (spec §4.2): a double quote not inside a
quoted token opens quote mode and the matching quote closes it, characters in
between taken verbatim, so the scan of a stage ends inside a quoted token
exactly when the stage holds an odd number of double quotes. -/
def spec_endsInsideQuote (s : List Char) : Bool :=
  (s.count '"') % 2 == 1

/-! ### The raw-mode line editor (lush.c lines 182-245)

The buffer is the `calloc`ed 1024-byte array; we model its occupied prefix as
a list of the stored byte values together with the cursor `pos`.  `getchar` is
modelled by a finite list of pending input values; once the list is exhausted
every further read yields `-1` (EOF), exactly what `getchar` returns at
end-of-input. -/

/-- The editor's state: the characters before the terminator and the cursor. -/
structure Editor where
  buf : List Int
  pos : Nat
deriving DecidableEq, Repr

/-- Insert a character at the cursor (lush.c 230-239): guarded by
`pos < BUFFER_SIZE - 1`, i.e. `pos < 1023` — a cursor test, not a length
test. -/
def insertCh (e : Editor) (c : Int) : Editor :=
  if e.pos < 1023 then
    ⟨e.buf.take e.pos ++ [c] ++ e.buf.drop e.pos, e.pos + 1⟩
  else e

/-- Backspace (lush.c 221-227): remove the character before the cursor and
move the cursor left; a no-op at cursor 0. -/
def backspaceKey (e : Editor) : Editor :=
  if 0 < e.pos then ⟨e.buf.take (e.pos - 1) ++ e.buf.drop e.pos, e.pos - 1⟩ else e

/-- Forward delete (lush.c 209-217): remove the character at the cursor; a
no-op at cursor = length. -/
def deleteKey (e : Editor) : Editor :=
  if e.pos < e.buf.length then ⟨e.buf.take e.pos ++ e.buf.drop (e.pos + 1), e.pos⟩
  else e

/-- Left arrow (lush.c 203-208): move the cursor left; a no-op at cursor 0. -/
def leftKey (e : Editor) : Editor :=
  if 0 < e.pos then ⟨e.buf, e.pos - 1⟩ else e

/-- Right arrow (lush.c 197-202): move the cursor right; a no-op at
cursor = length. -/
def rightKey (e : Editor) : Editor :=
  if e.pos < e.buf.length then ⟨e.buf, e.pos + 1⟩ else e

/-- One `getchar`: the next pending value, or `-1` (EOF) when the input
stream is exhausted. -/
def getc : List Int → Int × List Int
  | [] => (-1, [])
  | c :: rest => (c, rest)

/-- The read loop of `lush_read_line` (lush.c 191-241), fuel-bounded: `some`
is a submitted buffer (Enter seen), `none` means the loop was still running
when the fuel ran out.  `27`/`91`/`67`/`68`/`51`/`126`/`127`/`10` are
`'\033'`, `'['`, `'C'`, `'D'`, `'3'`, `'~'`, `'\177'`, `'\n'`.  Every value
that is none of these — including EOF's `-1` — falls into the insert
branch. -/
def readLineLoop : Nat → List Int → Editor → Option (List Int)
  | 0, _, _ => none
  | fuel + 1, input, e =>
    let r0 := getc input
    let c := r0.1
    if c = 27 then
      let r1 := getc r0.2
      let r2 := getc r1.2
      if r2.1 = 67 then readLineLoop fuel r2.2 (rightKey e)
      else if r2.1 = 68 then readLineLoop fuel r2.2 (leftKey e)
      else if r2.1 = 51 then
        let r3 := getc r2.2
        if r3.1 = 126 then readLineLoop fuel r3.2 (deleteKey e)
        else readLineLoop fuel r3.2 e
      else readLineLoop fuel r2.2 e
    else if c = 127 then readLineLoop fuel r0.2 (backspaceKey e)
    else if c = 10 then some e.buf
    else readLineLoop fuel r0.2 (insertCh e c)

/-- The state the loop starts from: empty zeroed buffer, cursor 0. -/
def editorInit : Editor := ⟨[], 0⟩

/-! ### The pipeline executor's pipe descriptors (lush.c lines 356-396)

For `n` stages the executor opens pipes `0 .. n-2` (lines 363-371), closes
each pipe's write end right after spawning its stage (line 379), and then in
the cleanup loop closes both ends of every pipe again (lines 389-393).  We
record the parent's open and close calls as lists of pipe-end identifiers,
mirroring the three loops. -/

/-- One end of a numbered pipe. -/
inductive PipeEnd where
  | r : PipeEnd
  | w : PipeEnd
deriving DecidableEq, Repr

/-- The fds opened by the pipe-creation loop over pipes `0 .. m-1`. -/
def pipeOpens : Nat → List (Nat × PipeEnd)
  | 0 => []
  | m + 1 => pipeOpens m ++ [(m, PipeEnd.r), (m, PipeEnd.w)]

/-- The close calls of the spawn loop (line 379): each pipe's write end once. -/
def stageLoopCloses : Nat → List (Nat × PipeEnd)
  | 0 => []
  | m + 1 => stageLoopCloses m ++ [(m, PipeEnd.w)]

/-- The close calls of the cleanup loop (lines 389-393): both ends of every
pipe. -/
def cleanupCloses : Nat → List (Nat × PipeEnd)
  | 0 => []
  | m + 1 => cleanupCloses m ++ [(m, PipeEnd.r), (m, PipeEnd.w)]

/-- All close calls `lush_execute_pipeline` makes in the parent for an
`n`-stage pipeline, in program order. -/
def lush_execute_pipeline_closes (n : Nat) : List (Nat × PipeEnd) :=
  stageLoopCloses (n - 1) ++ cleanupCloses (n - 1)

/-- All pipe fds `lush_execute_pipeline` opens for an `n`-stage pipeline. -/
def lush_execute_pipeline_opens (n : Nat) : List (Nat × PipeEnd) :=
  pipeOpens (n - 1)

/-! ### The pipeline executor's spawn wiring and the time builtin
(lush.c lines 98-123 and 356-396) -/

/-- A file descriptor as the executor wires it. -/
inductive Fd where
  | stdin : Fd
  | stdout : Fd
  | pipeR : Nat → Fd
  | pipeW : Nat → Fd
deriving DecidableEq, Repr

/-- The spawns `lush_execute_pipeline` performs when told there are `num`
commands: stages `0 .. num-2` read from the previous pipe (stage 0 from
standard input) and write to their own pipe (lines 374-380); the stage at
index `num-1` reads from the last pipe (standard input if `num = 1`) and
writes to standard output (lines 383-386).  `List.get?` models the array
read: past the stored stages it yields the array's NULL terminator. -/
def pipelineSpawns (cmds : List (List (List Char))) (num : Nat) :
    List (Option (List (List Char)) × Fd × Fd) :=
  ((List.range (num - 1)).map fun i =>
    (cmds.get? i, if i = 0 then Fd.stdin else Fd.pipeR (i - 1), Fd.pipeW i))
  ++ [(cmds.get? (num - 1),
       if 1 < num then Fd.pipeR (num - 2) else Fd.stdin, Fd.stdout)]

/-- The stage count `lush_time` computes with `while (args[i++])` (lush.c
103-106): the post-increment also counts the check that reads the NULL
terminator, so the loop leaves `i` at one more than the number of stages. -/
def lush_time_count : List (List (List Char)) → Nat
  | [] => 1
  | _ :: t => 1 + lush_time_count t

/-- What `lush_time` hands to the pipeline executor (lush.c 100-113): it
advances past its own name in stage 0 (`args[0]++`) and calls `lush_run` with
the count from `lush_time_count`; for a non-builtin head `lush_run` passes
both through to `lush_execute_pipeline` (lush.c 453). -/
def lush_time_spawns : List (List (List Char)) → List (Option (List (List Char)) × Fd × Fd)
  | [] => []
  | s0 :: rest =>
    pipelineSpawns (s0.drop 1 :: rest) (lush_time_count (s0.drop 1 :: rest))

/-- The builtin name table (lush.c line 41), in table order. -/
def builtin_strs : List (List Char) :=
  ["cd".data, "help".data, "exit".data, "time".data, "lush".data]

/-! ### The dispatcher lush_run and the Lua bridge's exec
(lush.c lines 440-454, lua_api.c / part_000 lines 68-85 and 118-132)

`lush_run` returns an int: `0` makes its callers terminate the process
(`exit(1)` in `main` and in `execute_command`), anything else continues.
Builtin return values are taken from the source: `cd` returns `0` exactly
when the user's passwd entry cannot be read and `1` otherwise (lush.c 51-54,
79), `help` and `lush` return `1`, `exit` returns `0` (line 96), `time`
returns what the forwarded `lush_run` returns (line 113, 122).  The result of
running an external pipeline is `1` except when `pipe()` fails (lines
367-370), which we abstract as the oracle `extRc`; an empty command name hits
the executor's no-op case (line 358) and yields `1`. -/

/-- `lush_run` on a first stage `argv0` and the remaining stages.  A first
entry that is NULL — an empty argument vector or a stored NULL from an unset
variable — hits the `commands[0][0] == NULL` check (lush.c 441) and returns
`1`. -/
def lush_run_model (pwOk : Bool) (extRc : Int) :
    List (Option (List Char)) → List (List (Option (List Char))) → Int
  | [], _ => 1
  | none :: _, _ => 1
  | some name :: restArgs, rest =>
    if name = "cd".data then (if pwOk then 1 else 0)
    else if name = "help".data then 1
    else if name = "exit".data then 0
    else if name = "time".data then lush_run_model pwOk extRc restArgs rest
    else if name = "lush".data then 1
    else if name = [] then 1
    else extRc

/-- The observable outcome of the bridge's `exec`. -/
inductive ExecOutcome where
  | returns : Bool → ExecOutcome
  | exits : ExecOutcome
  | crashes : ExecOutcome
deriving DecidableEq, Repr

/-- `l_execute_command` (part_000 118-132) on one command line:
`execute_command` (68-85) tokenizes, prints a parse error and skips the run
when the status is `-1`, calls `exit(1)` when `lush_run` returns `0`, and
otherwise returns the status; the Lua wrapper then pushes
`status != -1`.  With zero stages `lush_run` dereferences the NULL
`commands[0]`. -/
def l_execute_command_model (pwOk : Bool) (extRc : Int) (env : LushEnv)
    (line : List Char) : ExecOutcome :=
  let r := lush_split_args env (lush_split_pipes line)
  if r.2 = -1 then ExecOutcome.returns false
  else
    match r.1 with
    | [] => ExecOutcome.crashes
    | c0 :: rest =>
      if lush_run_model pwOk extRc c0 rest = 0 then ExecOutcome.exits
      else ExecOutcome.returns true

/-! ### Tilde expansion and cd (lush.c lines 48-80, part_000 lines 87-115)

Both `lush_cd` and the bridge's `get_expanded_path` locate the first `~`
anywhere in the argument with `strchr`, and when one is present build
`pw->pw_dir` + everything after that `~`, discarding everything before it;
an argument without `~` is copied verbatim.  `realpath` and `chdir` are
abstracted as an oracle: which paths resolve (and to what canonical absolute
path) and which resolved paths are directories the process can enter. -/

/-- Tilde expansion exactly as the `strchr`/`strcpy`/`strcat` sequence does
it. -/
def expandTilde (home arg : List Char) : List Char :=
  if '~' ∈ arg then home ++ (arg.dropWhile (fun c => c ≠ '~')).tail else arg

/-- The filesystem facts the cd/path code branches on. -/
structure FileSys where
  resolve : List Char → Option (List Char)
  isDir : List Char → Bool

/-- What `lush_cd` reports on one invocation. -/
inductive CdReport where
  | ok : CdReport
  | errRealpath : CdReport
  | errChdir : CdReport
  | errHome : CdReport
deriving DecidableEq, Repr

/-- `lush_cd` (lush.c 48-80): result = (working directory after the call,
what was reported, the int returned to the dispatcher).  `home = none` is a
failed `getpwuid` (lines 51-54); no argument means `chdir(pw->pw_dir)`
(lines 55-58); otherwise the argument is tilde-expanded, canonicalized with
`realpath` — failure reports and leaves the directory unchanged (lines
69-73) — and `chdir` to the resolved path is attempted (lines 74-76). -/
def lush_cd_model (fs : FileSys) (home : Option (List Char))
    (arg : Option (List Char)) (cwd : List Char) : List Char × CdReport × Int :=
  match home with
  | none => (cwd, CdReport.errHome, 0)
  | some h =>
    match arg with
    | none => if fs.isDir h then (h, CdReport.ok, 1) else (cwd, CdReport.errChdir, 1)
    | some a =>
      match fs.resolve (expandTilde h a) with
      | none => (cwd, CdReport.errRealpath, 1)
      | some p =>
        if fs.isDir p then (p, CdReport.ok, 1) else (cwd, CdReport.errChdir, 1)

/-- `get_expanded_path` (part_000 87-115): NULL without a passwd entry or a
NULL argument; otherwise the tilde-expanded argument canonicalized by
`realpath`, NULL when it does not resolve.  Shared by the bridge's `cd`,
`exists`, `isFile`, `isDirectory`, `isReadable` and `isWriteable`. -/
def get_expanded_path_model (fs : FileSys) (home : Option (List Char))
    (item : Option (List Char)) : Option (List Char) :=
  match home, item with
  | some h, some it => fs.resolve (expandTilde h it)
  | _, _ => none

/-- A concrete filesystem oracle: the single path `/f` exists (resolving to
itself) and no path is an enterable directory — the situation of a `cd`
target that is a regular file. -/
def fsRegFile : FileSys where
  resolve := fun p => if p = "/f".data then some "/f".data else none
  isDir := fun _ => false

/-! ## Theorems -/

/-- C1: for the line `echo $X` with `X` unset, the scan stores `getenv`'s
NULL as the second argument entry and still increments the position counter
(`args[pos++] = getenv(...)`, lush.c 328), then tacks on the empty string
found one past the stage terminator; the argument vector contains a NULL
placeholder, and its length equals — is not one less than — the length
obtained when `X` is set.  This contradicts the claim that an unset variable
never becomes a null entry and shortens the vector by one. -/
theorem C1_unset_var_null_entry :
    (lush_split_args envEmpty (lush_split_pipes "echo $X".data)).1 =
      [[some "echo".data, none, some []]] ∧
    none ∈ ((lush_split_args envEmpty (lush_split_pipes "echo $X".data)).1.headD []) ∧
    ((lush_split_args envEmpty (lush_split_pipes "echo $X".data)).1.headD []).length =
      ((lush_split_args envX (lush_split_pipes "echo $X".data)).1.headD []).length := by
  decide

/-- C2: evaluating the time builtin's dispatch at the failing input
`time echo hi`.  After stripping `time`, the one remaining stage is counted
as 2 by the post-increment loop, so the executor wires `echo hi` to write
into pipe 0 (not standard output) and spawns the NULL array terminator as
the stage attached to standard output; `hi` therefore never reaches standard
output, contradicting the claim. -/
theorem C2_time_miscount :
    lush_time_count [["echo".data, "hi".data]] = 2 ∧
    lush_time_spawns [["time".data, "echo".data, "hi".data]] =
      [(some ["echo".data, "hi".data], Fd.stdin, Fd.pipeW 0),
       (none, Fd.pipeR 0, Fd.stdout)] ∧
    builtin_strs.contains "echo".data = false := by
  decide

/-- C5: on an exhausted input stream every `getchar` yields `-1`, which falls
into the insert branch of the read loop; for every fuel bound and every
editor state the loop is still running — `lush_read_line` never returns at
end-of-input, contradicting the claim that EOF is treated as an empty-line
submission. -/
theorem C5_read_line_eof_loops :
    ∀ (fuel : Nat) (e : Editor), readLineLoop fuel [] e = none := by
  intro fuel
  induction fuel with
  | zero => intro e; rfl
  | succ n ih => intro e; exact ih (insertCh e (-1))

set_option maxRecDepth 8000 in
/-- C9 counterexample: the reachable state with a full buffer (1023
characters) and the cursor at its end satisfies the cursor invariant, yet
inserting a character does not advance the cursor: the guard
`pos < BUFFER_SIZE - 1` rejects the insertion, so "insertion advances the
cursor by one" is false as stated. -/
theorem C9_counterexample :
    (⟨List.replicate 1023 0, 1023⟩ : Editor).pos ≤
      (⟨List.replicate 1023 0, 1023⟩ : Editor).buf.length ∧
    (insertCh ⟨List.replicate 1023 0, 1023⟩ 97).pos ≠
      (⟨List.replicate 1023 0, 1023⟩ : Editor).pos + 1 := by
  constructor
  · simp
  · simp [insertCh]

/-- C9 (amended): every editing operation preserves `0 ≤ cursor ≤ length`;
backspace and left arrow are no-ops at cursor 0, forward delete and right
arrow are no-ops at cursor = length, and insertion advances the cursor by
one whenever the cursor is below the capacity guard 1023 (`BUFFER_SIZE - 1`),
while at the guard the insertion is rejected and the state unchanged. -/
theorem C9_editor_invariant (e : Editor) (c : Int)
    (hinv : e.pos ≤ e.buf.length) :
    ((insertCh e c).pos ≤ (insertCh e c).buf.length) ∧
    ((backspaceKey e).pos ≤ (backspaceKey e).buf.length) ∧
    ((deleteKey e).pos ≤ (deleteKey e).buf.length) ∧
    ((leftKey e).pos ≤ (leftKey e).buf.length) ∧
    ((rightKey e).pos ≤ (rightKey e).buf.length) ∧
    (e.pos = 0 → backspaceKey e = e ∧ leftKey e = e) ∧
    (e.pos = e.buf.length → deleteKey e = e ∧ rightKey e = e) ∧
    (e.pos < 1023 → (insertCh e c).pos = e.pos + 1) ∧
    (1023 ≤ e.pos → insertCh e c = e) := by
  obtain ⟨buf, pos⟩ := e
  simp only [insertCh, backspaceKey, deleteKey, leftKey, rightKey] at *
  refine ⟨?_, ?_, ?_, ?_, ?_, ?_, ?_, ?_, ?_⟩
  · split_ifs with h
    · simp
      omega
    · exact hinv
  · split_ifs with h
    · simp
      omega
    · exact hinv
  · split_ifs with h
    · simp
      omega
    · exact hinv
  · split_ifs with h
    · simp
      omega
    · exact hinv
  · split_ifs with h
    · simp
      omega
    · exact hinv
  · intro h
    subst h
    simp
  · intro h
    simp [h]
  · intro h
    simp [h]
  · intro h
    rw [if_neg (by omega)]

/-- The plain `|`-split never returns the empty list of segments. -/
theorem pipeSegs_ne_nil (l : List Char) : pipeSegs l ≠ [] := by
  induction l with
  | nil => simp [pipeSegs]
  | cons c rest ih =>
    cases h : pipeSegs rest with
    | nil => exact absurd h ih
    | cons s ss =>
      simp only [pipeSegs, h]
      split <;> simp

/-- The plain `|`-split has one segment more than the line has pipes. -/
theorem pipeSegs_length (l : List Char) :
    (pipeSegs l).length = l.count '|' + 1 := by
  induction l with
  | nil => simp [pipeSegs]
  | cons c rest ih =>
    cases h : pipeSegs rest with
    | nil => exact absurd h (pipeSegs_ne_nil rest)
    | cons s ss =>
      rw [h] at ih
      by_cases hc : c = '|'
      · subst hc
        simp [pipeSegs, h, List.count_cons, ih]
      · simp only [pipeSegs, h, hc, if_neg, List.count_cons, List.length_cons]
        simp only [List.length_cons] at ih
        simp [hc]
        omega

/-- C3 counterexample: the line `a||b` has two unescaped pipes and no quotes,
but `strtok` skips the empty segment between the adjacent pipes, so the
tokenizer produces 2 stages, not 2 + 1. -/
theorem C3_counterexample :
    ¬ ((lush_split_pipes "a||b".data).length = "a||b".data.count '|' + 1) := by
  decide

/-- C3 (amended): for every input line all of whose `|`-separated segments
are non-empty — no leading or trailing pipe and no two adjacent pipes — the
tokenizer produces exactly `count + 1` stages. -/
theorem C3_stage_count (line : List Char)
    (h : ∀ s ∈ pipeSegs line, s ≠ []) :
    (lush_split_pipes line).length = line.count '|' + 1 := by
  unfold lush_split_pipes strtokPipes
  rw [List.length_map, List.filter_eq_self.mpr ?_, pipeSegs_length]
  intro a ha
  simpa using h a ha

/-- C3 witness: the amended count at the concrete line `a|b`. -/
theorem C3_stage_count_witness :
    (lush_split_pipes "a|b".data).length = "a|b".data.count '|' + 1 :=
  C3_stage_count "a|b".data (by decide)

/-- If some stage's scan ends inside an unterminated quote, the outer loop of
`lush_split_args` reports `-1` whatever was already collected. -/
theorem splitArgsGo_unterminated (env : LushEnv) :
    ∀ (stages : List (List Char)) (acc : List (List (Option (List Char)))),
      (∃ s ∈ stages, (scanStageRun env s).2 = true) →
      (splitArgsGo env acc stages).2 = -1 := by
  intro stages
  induction stages with
  | nil =>
    intro acc h
    simp at h
  | cons s rest ih =>
    intro acc h
    cases hb : (scanStageRun env s).2 with
    | true => simp [splitArgsGo, hb]
    | false =>
      have hrest : ∃ t ∈ rest, (scanStageRun env t).2 = true := by
        rcases h with ⟨t, ht, hbad⟩
        rcases List.mem_cons.mp ht with rfl | htr
        · rw [hb] at hbad; exact absurd hbad (by simp)
        · exact ⟨t, htr, hbad⟩
      simpa [splitArgsGo, hb] using ih (acc ++ [(scanStageRun env s).1]) hrest

/-- C4 counterexample: the line `"""` contains exactly one unmatched double
quote — by the specification's quote rule its scan ends inside a quoted
token — yet tokenization succeeds with status 1 (the quote right after the
adjacent `""` pair is consumed unexamined as a literal character), and the
dispatcher is invoked. -/
theorem C4_counterexample :
    spec_endsInsideQuote ((lush_split_pipes "\"\"\"".data).headD []) = true ∧
    (lush_split_args envEmpty (lush_split_pipes "\"\"\"".data)).2 = 1 ∧
    (lush_split_args envEmpty (lush_split_pipes "\"\"\"".data)).1 =
      [[some ['"']]] ∧
    lush_main_runs envEmpty (lush_split_pipes "\"\"\"".data) = true := by
  decide

/-- C4 (amended): whenever some stage's scan does end with quote mode open
(`inside_string` still set), tokenization reports the distinguished status
`-1`, distinct from every success status (any stage count), and `main` does
not invoke the dispatcher; the exception forced by the counterexample is
that a double quote immediately following an adjacent empty `""` pair is
never examined by the scan and so does not open quote mode. -/
theorem C4_unterminated_quote (env : LushEnv) (stages : List (List Char))
    (h : ∃ s ∈ stages, (scanStageRun env s).2 = true) :
    (lush_split_args env stages).2 = -1 ∧
    (∀ k : Nat, (lush_split_args env stages).2 ≠ (k : Int)) ∧
    lush_main_runs env stages = false := by
  have hst : (lush_split_args env stages).2 = -1 :=
    splitArgsGo_unterminated env stages [] h
  refine ⟨hst, ?_, ?_⟩
  · intro k
    rw [hst]
    omega
  · simp [lush_main_runs, hst]

/-- C4 witness: the amended statement at the one-stage line `"a` whose quote
is never closed. -/
theorem C4_unterminated_quote_witness :
    (lush_split_args envEmpty [['"', 'a']]).2 = -1 ∧
    lush_main_runs envEmpty [['"', 'a']] = false :=
  ⟨(C4_unterminated_quote envEmpty [['"', 'a']] (by decide)).1,
   (C4_unterminated_quote envEmpty [['"', 'a']] (by decide)).2.2⟩

/-- The spawn loop closes pipe `i`'s write end once for every `i < m` and
touches no other fd. -/
theorem stageLoopCloses_count (m i : Nat) (pe : PipeEnd) :
    (stageLoopCloses m).count (i, pe) =
      if i < m ∧ pe = PipeEnd.w then 1 else 0 := by
  induction m with
  | zero => simp [stageLoopCloses]
  | succ n ih =>
    rw [show stageLoopCloses (n + 1) = stageLoopCloses n ++ [(n, PipeEnd.w)] from rfl,
        List.count_append, ih]
    by_cases hi : i = n <;> cases pe <;> simp_all <;> split_ifs <;> omega

/-- The cleanup loop closes both ends of pipe `i` once each for every
`i < m`. -/
theorem cleanupCloses_count (m i : Nat) (pe : PipeEnd) :
    (cleanupCloses m).count (i, pe) = if i < m then 1 else 0 := by
  induction m with
  | zero => simp [cleanupCloses]
  | succ n ih =>
    rw [show cleanupCloses (n + 1) =
          cleanupCloses n ++ [(n, PipeEnd.r), (n, PipeEnd.w)] from rfl,
        List.count_append, ih]
    by_cases hi : i = n <;> cases pe <;> simp_all <;> split_ifs <;> omega

/-- The fds the pipe-creation loop opens are exactly both ends of pipes
`0 .. m-1`. -/
theorem pipeOpens_mem (m i : Nat) (pe : PipeEnd) :
    (i, pe) ∈ pipeOpens m ↔ i < m := by
  induction m with
  | zero => simp [pipeOpens]
  | succ n ih =>
    rw [show pipeOpens (n + 1) = pipeOpens n ++ [(n, PipeEnd.r), (n, PipeEnd.w)] from rfl]
    simp only [List.mem_append, ih]
    cases pe <;> (simp; omega)

/-- C6 counterexample: for a two-stage pipeline the parent closes the write
end of pipe 0 twice (once in the spawn loop, once in cleanup), so "closes
each of the pipe file descriptors exactly once" is false. -/
theorem C6_counterexample :
    (lush_execute_pipeline_closes 2).count (0, PipeEnd.w) = 2 ∧
    ¬ ((lush_execute_pipeline_closes 2).count (0, PipeEnd.w) = 1) := by
  decide

/-- C6 (amended): for an `n`-stage pipeline (`n ≥ 2`) the parent closes each
pipe's read end exactly once and each pipe's write end exactly twice — the
spawn-loop close plus the redundant cleanup close — and every pipe fd it
opened is closed at least once, so no pipe descriptor remains open when the
executor returns. -/
theorem C6_pipe_fd_closes (n i : Nat) (hn : 2 ≤ n) (hi : i < n - 1) :
    (lush_execute_pipeline_closes n).count (i, PipeEnd.r) = 1 ∧
    (lush_execute_pipeline_closes n).count (i, PipeEnd.w) = 2 ∧
    (∀ fd ∈ lush_execute_pipeline_opens n, fd ∈ lush_execute_pipeline_closes n) := by
  refine ⟨?_, ?_, ?_⟩
  · rw [lush_execute_pipeline_closes, List.count_append,
        stageLoopCloses_count, cleanupCloses_count]
    simp [hi]
  · rw [lush_execute_pipeline_closes, List.count_append,
        stageLoopCloses_count, cleanupCloses_count]
    simp [hi]
  · rintro ⟨j, pe⟩ hfd
    have hj : j < n - 1 := (pipeOpens_mem (n - 1) j pe).mp hfd
    have : 0 < (lush_execute_pipeline_closes n).count (j, pe) := by
      rw [lush_execute_pipeline_closes, List.count_append,
          stageLoopCloses_count, cleanupCloses_count]
      cases pe <;> simp [hj]
    exact List.count_pos_iff.mp this

/-- C6 witness: the amended statement at a three-stage pipeline, pipe 1. -/
theorem C6_pipe_fd_closes_witness :
    (lush_execute_pipeline_closes 3).count (1, PipeEnd.r) = 1 ∧
    (lush_execute_pipeline_closes 3).count (1, PipeEnd.w) = 2 ∧
    (∀ fd ∈ lush_execute_pipeline_opens 3, fd ∈ lush_execute_pipeline_closes 3) :=
  C6_pipe_fd_closes 3 1 (by decide) (by decide)

/-- C7 counterexample: the line `exit` tokenizes successfully, yet the
bridge's `exec` returns no boolean at all: `lush_run` returns 0 and
`execute_command` calls `exit(1)`, terminating the host process, so the
result cannot reflect the run's success or failure. -/
theorem C7_counterexample :
    l_execute_command_model true 1 envEmpty "exit".data = ExecOutcome.exits ∧
    (lush_split_args envEmpty (lush_split_pipes "exit".data)).2 ≠ -1 ∧
    ExecOutcome.exits ≠ ExecOutcome.returns true ∧
    ExecOutcome.exits ≠ ExecOutcome.returns false := by
  decide

/-- C7 (amended): the boolean `exec` pushes reflects only tokenizer success —
`false` exactly on a parse failure, `true` whenever parsing succeeded and the
dispatcher returned nonzero; and when the dispatcher returns 0 (the `exit`
builtin, a failed home-directory lookup in `cd`, or a pipe-creation failure)
the bridge terminates the whole process instead of returning a boolean. -/
theorem C7_exec_bool (pwOk : Bool) (extRc : Int) (env : LushEnv)
    (line : List Char) :
    ((lush_split_args env (lush_split_pipes line)).2 = -1 →
      l_execute_command_model pwOk extRc env line = ExecOutcome.returns false) ∧
    (∀ c0 rest, (lush_split_args env (lush_split_pipes line)).2 ≠ -1 →
      (lush_split_args env (lush_split_pipes line)).1 = c0 :: rest →
      lush_run_model pwOk extRc c0 rest ≠ 0 →
      l_execute_command_model pwOk extRc env line = ExecOutcome.returns true) ∧
    (∀ c0 rest, (lush_split_args env (lush_split_pipes line)).2 ≠ -1 →
      (lush_split_args env (lush_split_pipes line)).1 = c0 :: rest →
      lush_run_model pwOk extRc c0 rest = 0 →
      l_execute_command_model pwOk extRc env line = ExecOutcome.exits) := by
  refine ⟨?_, ?_, ?_⟩
  · intro h
    simp [l_execute_command_model, h]
  · intro c0 rest hst hcons hrc
    simp [l_execute_command_model, hst, hcons, hrc]
  · intro c0 rest hst hcons hrc
    simp [l_execute_command_model, hst, hcons, hrc]

/-- C7 witness: the characterization applied at the line `help`, whose run
returns 1, so `exec` returns `true`. -/
theorem C7_exec_bool_witness :
    l_execute_command_model true 1 envEmpty "help".data = ExecOutcome.returns true :=
  (C7_exec_bool true 1 envEmpty "help".data).2.1 [some "help".data] []
    (by decide) (by decide) (by decide)

/-- C8 counterexample: with a target that resolves (it exists) but is a
regular file, not a directory, `realpath` succeeds yet `chdir` fails: the
working directory is left unchanged and no success is reported, so "when
resolution succeeds, the working directory is changed to the canonicalized
absolute path and success is reported" is false. -/
theorem C8_counterexample :
    fsRegFile.resolve (expandTilde "/home/u".data "/f".data) = some "/f".data ∧
    (lush_cd_model fsRegFile (some "/home/u".data) (some "/f".data) "/start".data).1 =
      "/start".data ∧
    (lush_cd_model fsRegFile (some "/home/u".data) (some "/f".data) "/start".data).2.1 ≠
      CdReport.ok ∧
    "/start".data ≠ "/f".data := by
  decide

/-- C8 (amended): when the tilde-expanded target does not resolve, `cd`
reports the realpath failure and leaves the working directory unchanged;
when it resolves to a directory the process can enter, the working directory
becomes the canonicalized absolute path and no failure is reported; when it
resolves to something `chdir` rejects, the failure is reported and the
working directory is unchanged. -/
theorem C8_cd_resolution (fs : FileSys) (h a cwd : List Char) :
    (fs.resolve (expandTilde h a) = none →
      lush_cd_model fs (some h) (some a) cwd = (cwd, CdReport.errRealpath, 1)) ∧
    (∀ p, fs.resolve (expandTilde h a) = some p → fs.isDir p = true →
      lush_cd_model fs (some h) (some a) cwd = (p, CdReport.ok, 1)) ∧
    (∀ p, fs.resolve (expandTilde h a) = some p → fs.isDir p = false →
      lush_cd_model fs (some h) (some a) cwd = (cwd, CdReport.errChdir, 1)) := by
  refine ⟨?_, ?_, ?_⟩
  · intro hres
    simp [lush_cd_model, hres]
  · intro p hres hdir
    simp [lush_cd_model, hres, hdir]
  · intro p hres hdir
    simp [lush_cd_model, hres, hdir]

/-- The scan for the first `~` skips exactly the tilde-free prefix. -/
theorem dropWhile_until_tilde (pre post : List Char) (h : '~' ∉ pre) :
    (pre ++ '~' :: post).dropWhile (fun c => c ≠ '~') = '~' :: post := by
  induction pre with
  | nil => simp [List.dropWhile]
  | cons c cs ih =>
    have hc : c ≠ '~' := fun hceq => h (hceq ▸ List.mem_cons_self c cs)
    have hcs : '~' ∉ cs := fun hm => h (List.mem_cons_of_mem c hm)
    rw [List.cons_append, List.dropWhile_cons, if_pos (by simp [hc])]
    exact ih hcs

/-- C10: tilde expansion — shared by the `cd` builtin and the bridge's
`get_expanded_path` behind `cd`/`exists`/`isFile`/`isDirectory`/
`isReadable`/`isWriteable` — fires on the first `~` anywhere in the
argument: the result is the home directory concatenated with the text after
that `~`, everything before it discarded; an argument with no `~` is used
verbatim. -/
theorem C10_tilde_expansion (home pre post arg : List Char) (fs : FileSys)
    (hpre : '~' ∉ pre) (harg : '~' ∉ arg) :
    expandTilde home (pre ++ '~' :: post) = home ++ post ∧
    expandTilde home arg = arg ∧
    get_expanded_path_model fs (some home) (some (pre ++ '~' :: post)) =
      fs.resolve (home ++ post) := by
  have hmem : '~' ∈ pre ++ '~' :: post :=
    List.mem_append_right pre (List.mem_cons_self '~' post)
  have hexp : expandTilde home (pre ++ '~' :: post) = home ++ post := by
    rw [expandTilde, if_pos hmem, dropWhile_until_tilde pre post hpre]
    simp
  refine ⟨hexp, ?_, ?_⟩
  · rw [expandTilde, if_neg harg]
  · rw [get_expanded_path_model, hexp]

/-- C10 witness: the expansion at home `/h`, argument `ab~cd` and the
tilde-free argument `xy`. -/
theorem C10_tilde_expansion_witness :
    expandTilde "/h".data ("ab".data ++ '~' :: "cd".data) = "/h".data ++ "cd".data ∧
    expandTilde "/h".data "xy".data = "xy".data ∧
    get_expanded_path_model fsRegFile (some "/h".data)
      (some ("ab".data ++ '~' :: "cd".data)) = fsRegFile.resolve ("/h".data ++ "cd".data) :=
  C10_tilde_expansion "/h".data "ab".data "cd".data "xy".data fsRegFile
    (by decide) (by decide)

/-- C9 witness: the amended statement instantiated at the one-character
buffer with the cursor after it. -/
theorem C9_editor_invariant_witness :
    ((insertCh ⟨[97], 1⟩ 98).pos ≤ (insertCh ⟨[97], 1⟩ 98).buf.length) ∧
    ((backspaceKey ⟨[97], 1⟩).pos ≤ (backspaceKey ⟨[97], 1⟩).buf.length) ∧
    ((deleteKey ⟨[97], 1⟩).pos ≤ (deleteKey ⟨[97], 1⟩).buf.length) ∧
    ((leftKey ⟨[97], 1⟩).pos ≤ (leftKey ⟨[97], 1⟩).buf.length) ∧
    ((rightKey ⟨[97], 1⟩).pos ≤ (rightKey ⟨[97], 1⟩).buf.length) ∧
    ((⟨[97], 1⟩ : Editor).pos = 0 →
      backspaceKey ⟨[97], 1⟩ = ⟨[97], 1⟩ ∧ leftKey ⟨[97], 1⟩ = ⟨[97], 1⟩) ∧
    ((⟨[97], 1⟩ : Editor).pos = (⟨[97], 1⟩ : Editor).buf.length →
      deleteKey ⟨[97], 1⟩ = ⟨[97], 1⟩ ∧ rightKey ⟨[97], 1⟩ = ⟨[97], 1⟩) ∧
    ((⟨[97], 1⟩ : Editor).pos < 1023 →
      (insertCh ⟨[97], 1⟩ 98).pos = (⟨[97], 1⟩ : Editor).pos + 1) ∧
    (1023 ≤ (⟨[97], 1⟩ : Editor).pos → insertCh ⟨[97], 1⟩ 98 = ⟨[97], 1⟩) :=
  C9_editor_invariant ⟨[97], 1⟩ 98 (by decide)
